import Mathlib

/-!
Verification of the XISF/FITS viewer core pipeline: container header
parsing, byte unshuffling, min/max normalization, and the tone-map chain,
shallowly embedded from `joergs-xifs-viewer_rev9a.py`.
-/

namespace XISFViewer

/-- Is `sep` a prefix of `s`? (structural helper for `pySplit`). -/
def matchesAt : List Char → List Char → Bool
  | [], _ => true
  | _ :: _, [] => false
  | a :: as, b :: bs => a = b && matchesAt as bs

/-- Fuel-driven scanner for `pySplit`; the fuel starts at the string
length, and every recursive call consumes at least one character, so the
fuel never runs out on the starting call. -/
def pySplitAux (sep : List Char) : Nat → List Char → List Char → List (List Char)
  | _, acc, [] => [acc.reverse]
  | 0, acc, rest => [acc.reverse ++ rest]
  | fuel + 1, acc, c :: rest =>
    if matchesAt sep (c :: rest) then
      acc.reverse :: pySplitAux sep fuel [] (List.drop sep.length (c :: rest))
    else
      pySplitAux sep fuel (c :: acc) rest

/-- Model of Python `s.split(sep)` for a nonempty separator: split on
leftmost non-overlapping occurrences of `sep`; `n` matches give `n+1`
parts, and absent separators give `[s]`. -/
def pySplit (s sep : String) : List String :=
  (pySplitAux sep.toList s.toList.length [] s.toList).map (fun cs => String.mk cs)

/-- Model of Python `s.lower()` on ASCII input. -/
def pyLower (s : String) : String :=
  String.mk (s.toList.map Char.toLower)

/-- Model of Python's whitespace strip in `int(s)`. -/
def pyStrip (s : String) : String :=
  String.mk
    (((s.toList.dropWhile Char.isWhitespace).reverse.dropWhile Char.isWhitespace).reverse)

/-- After the leading digit of a Python int literal: digits, with single
`_` separators allowed only between digits. -/
def pyDigitTail : List Char → Bool
  | [] => true
  | '_' :: d :: rest => d.isDigit && pyDigitTail rest
  | ['_'] => false
  | d :: rest => d.isDigit && pyDigitTail rest

/-- A nonempty ASCII digit run in Python `int()` syntax: starts with a
digit, single underscores permitted strictly between digits. -/
def pyDigitRun : List Char → Bool
  | [] => false
  | c :: rest => c.isDigit && pyDigitTail rest

/-- Model of Python `int(s)`: optional surrounding whitespace, an optional
sign, then a nonempty run of decimal digits with optional single `_`
separators between digits.  Returns `none` when Python `int()` would
raise `ValueError`. -/
def pyInt (s : String) : Option Int :=
  let cs := (pyStrip s).toList
  let signRest : Bool × List Char :=
    match cs with
    | '-' :: r => (true, r)
    | '+' :: r => (false, r)
    | r => (false, r)
  let rest := signRest.2
  if pyDigitRun rest then
    let n : Nat := rest.foldl
      (fun a c => if c = '_' then a else 10 * a + (c.toNat - 48)) 0
    some (if signRest.1 then -(n : Int) else (n : Int))
  else none

/-- The attributes of the `<Image>` element that `parse_xisf_header` reads
(`none` models an absent XML attribute). -/
structure ImageAttrs where
  geometry : Option String
  sampleFormat : Option String
  compression : Option String
  location : Option String
deriving DecidableEq, Repr

/-- The dictionary returned by `parse_xisf_header` (the verbatim
`xml_header` text is not modelled; no claim mentions it). -/
structure XISFHeader where
  width : Int
  height : Int
  channels : Int
  sample_format : String
  compression : String
  offset : Int
  compressed_size : Int
  uncompressed_size : Int
  item_size : Int
deriving DecidableEq, Repr

/-- `width, height, channels = map(int, geometry.split(":"))` — succeeds
exactly when the split yields three fields that all parse as ints. -/
def parse_geometry (g : String) : Option (Int × Int × Int) :=
  match (pySplit g ":").map pyInt with
  | [some w, some h, some c] => some (w, h, c)
  | _ => none

/-- Lines 53-57: `parts = location.split(":")`; reject a scheme other than
`"attachment"`, then `int(parts[1])`, `int(parts[2])` (an out-of-range
index or a bad int is an uncaught exception, i.e. a parse failure). -/
def parse_location (loc : String) : Except String (Int × Int) :=
  match pySplit loc ":" with
  | scheme :: rest =>
    if scheme = "attachment" then
      match rest with
      | a :: b :: _ =>
        match pyInt a, pyInt b with
        | some off, some sz => Except.ok (off, sz)
        | _, _ => Except.error "ValueError: invalid literal for int"
      | _ => Except.error "IndexError: list index out of range"
    else Except.error "Nur attachment-Location wird unterstuetzt."
  | [] => Except.error "IndexError: list index out of range"

/-- Lines 66-67 inside the `try`: `int(tail.split(":")[0])`,
`int(tail.split(":")[1])`; `none` when either raises (IndexError or
ValueError), which the `except` turns into the fallback. -/
def parse_sh_suffix (tail : String) : Option (Int × Int) :=
  match pySplit tail ":" with
  | f0 :: f1 :: _ =>
    match pyInt f0, pyInt f1 with
    | some u, some i => some (u, i)
    | _, _ => none
  | _ => none

/-- Lines 62-76: derive `(uncompressed_size, item_size)` from the
(lower-cased) compression string; any failure inside the `+sh:` suffix
falls back to `(width*height*bytes_per_pixel, 1)`. -/
def compression_sizes (compression : String) (w h bpp : Int) : Int × Int :=
  if compression = "none" then (w * h * bpp, 1)
  else
    let cp := pySplit compression "+sh:"
    if cp.length = 2 then
      match parse_sh_suffix (cp.getD 1 "") with
      | some r => r
      | none => (w * h * bpp, 1)
    else (w * h * bpp, 1)

/-- The failure-prone part of `parse_xisf_header` (lines 48-61), in source
order: geometry, then attribute defaults, then location, then the
sample-format check.  The compression attribute is never consulted here:
its processing (lines 62-76) cannot fail. -/
def parse_core (attrs : ImageAttrs) :
    Except String ((Int × Int × Int) × String × (Int × Int)) := do
  let g ← match attrs.geometry with
    | none => Except.error "AttributeError: NoneType has no attribute split"
    | some g => Except.ok g
  let whc ← match parse_geometry g with
    | none => Except.error "ValueError: invalid geometry"
    | some t => Except.ok t
  let sample_format := attrs.sampleFormat.getD "UInt16"
  let location := attrs.location.getD "attachment:0:0"
  let offsz ← parse_location location
  if pyLower sample_format = "uint16" then
    Except.ok (whc, sample_format, offsz)
  else
    Except.error "Nur UInt16 wird unterstuetzt"

/-- `parse_xisf_header`, lines 34-88, at the attribute level (the XML
location of the attributes is abstracted; everything from line 48 on is
embedded).  `bytes_per_pixel` is 2 on every success path since only
UInt16 passes the format check. -/
def parse_xisf_header (attrs : ImageAttrs) : Except String XISFHeader :=
  match parse_core attrs with
  | Except.error e => Except.error e
  | Except.ok ((w, h, c), sample_format, (off, sz)) =>
    let compression := pyLower (attrs.compression.getD "none")
    let ui := compression_sizes compression w h 2
    Except.ok { width := w, height := h, channels := c,
                sample_format := sample_format, compression := compression,
                offset := off, compressed_size := sz,
                uncompressed_size := ui.1, item_size := ui.2 }

/-- `unshuffle_uint16` (lines 90-96): view the input as uint8, split at the
midpoint `n = size // 2` into a low half and a high half, combine as
`low + (high << 8)` in uint16 arithmetic, and serialize back to bytes
(little-endian, as `tobytes` does on the supported platform).  Bytes are
naturals; uint8/uint16 wrap-around is the explicit `% 65536` (inputs from
a Python `bytes` are `< 256`, so it never truncates there). -/
def unshuffle_uint16 (data : List Nat) : List Nat :=
  let n := data.length / 2
  let low := data.take n
  let high := (data.drop n).take n
  let combined := List.zipWith (fun l h => (l + h * 256) % 65536) low high
  (combined.map (fun v => [v % 256, v / 256 % 256])).flatten

/-- Modelled from the spec: `shuffle` is the byte-plane regrouping of a
16-bit-aligned buffer that writes all low bytes first and then all high
bytes (spec 4.2 / 8); it is not present in the source, only its inverse
`unshuffle_uint16` is. -/
def shuffle_uint16 (data : List Nat) : List Nat :=
  let n := data.length / 2
  (List.range n).map (fun i => data.getD (2 * i) 0) ++
    (List.range n).map (fun i => data.getD (2 * i + 1) 0)

/-- `np.frombuffer(data, dtype=np.uint16)`: little-endian 16-bit samples
from consecutive byte pairs (a trailing odd byte cannot arise on the
decode path, where numpy would raise). -/
def bytes_to_uint16 : List Nat → List Nat
  | a :: b :: rest => (a % 256 + 256 * (b % 256)) :: bytes_to_uint16 rest
  | _ => []

/-- Lines 656-661: min/max normalization of the uint16 sample array; the
flat case (`max > min` false) produces `np.zeros_like`, an all-zero array
of the same shape. -/
noncomputable def normalize (samples : List Nat) : List ℝ :=
  let mn := samples.min?.getD 0
  let mx := samples.max?.getD 0
  if mx > mn then
    samples.map (fun (x : Nat) => ((x : ℝ) - (mn : ℝ)) / ((mx : ℝ) - (mn : ℝ)))
  else
    samples.map (fun (_ : Nat) => (0 : ℝ))

/-- Lines 701-706 (FITS path): float samples with NaN modelled as `none`.
`np.nanmin`/`np.nanmax` range over the non-NaN values only; if the
comparison `max > min` fails (flat image, or all-NaN where the NaN
comparison is false) the result is `np.zeros_like`, all zeros; otherwise
each sample is normalized pointwise (NaN in, NaN out). -/
noncomputable def fits_normalize (l : List (Option ℝ)) : List (Option ℝ) :=
  let vals := l.filterMap id
  match vals.min?, vals.max? with
  | some mn, some mx =>
    if mx > mn then l.map (Option.map (fun x => (x - mn) / (mx - mn)))
    else l.map (fun _ => some 0)
  | _, _ => l.map (fun _ => some 0)

/-- `asinh_stretch` (lines 29-32), pointwise: identity when the factor is
`<= 0`, else `arcsinh(v*k) / arcsinh(k)`. -/
noncomputable def asinh_stretch (v k : ℝ) : ℝ :=
  if k ≤ 0 then v else Real.arsinh (v * k) / Real.arsinh k

/-- `np.clip(x, 0, 1)` pointwise. -/
noncomputable def clip01 (x : ℝ) : ℝ := min (max x 0) 1

/-- The tone-map chain of `update_display_image` (lines 837-840),
pointwise: asinh stretch, gamma as `x ** (1/gamma if gamma != 0 else 1)`,
brightness with clip, contrast about 0.5 with clip. -/
noncomputable def toneMapPoint (es gamma brightness contrast v : ℝ) : ℝ :=
  let stretched := asinh_stretch v es
  let g := stretched ^ (if gamma ≠ 0 then 1 / gamma else 1)
  let b := clip01 (g * brightness)
  clip01 ((b - 0.5) * contrast + 0.5)

/-- The decoded-image cache: an `OrderedDict` keyed by file path, as an
insertion-ordered association list. -/
abbrev Cache (V : Type) := List (String × V)

/-- `path in self.cache` / `self.cache[path]`: plain lookup; an access
does not reorder the dict. -/
def cache_get {V : Type} (c : Cache V) (k : String) : Option V :=
  (c.find? (fun p => p.1 = k)).map (fun p => p.2)

/-- Lines 667-669 / 711-713: `self.cache[path] = img` (an existing key is
updated in place, a new key is appended), then
`if len(self.cache) > 5: self.cache.popitem(last=False)` — drop the
oldest (first) entry when over capacity. -/
def cache_put {V : Type} (c : Cache V) (k : String) (v : V) : Cache V :=
  let c' :=
    if (cache_get c k).isSome then
      c.map (fun p => if p.1 = k then (k, v) else p)
    else c ++ [(k, v)]
  if c'.length > 5 then c'.tail else c'

/-- Outcome of the rasterization branch of `update_display_image`
(lines 844-853): grayscale `'L'` for 2-D, `'RGB'` for 3-D with 3
channels, and otherwise the method clears the image label and returns
normally — no exception is raised. -/
inductive DisplayResult where
  | gray
  | rgb
  | cleared
deriving DecidableEq, Repr

/-- The shape dispatch of lines 845-853 on `img_scaled.shape`. -/
def display_shape_dispatch (shape : List Nat) : DisplayResult :=
  if shape.length = 2 then DisplayResult.gray
  else if shape.length = 3 ∧ shape.getD 2 0 = 3 then DisplayResult.rgb
  else DisplayResult.cleared

/-- Modelled from the spec (4.3, 7): rasterization of any array that is
neither 2-D grayscale nor 3-D with exactly 3 channels is a hard
`UnsupportedChannelLayout` failure surfaced to the caller. -/
def spec_rasterize (shape : List Nat) : Except String DisplayResult :=
  if shape.length = 2 then Except.ok DisplayResult.gray
  else if shape.length = 3 ∧ shape.getD 2 0 = 3 then Except.ok DisplayResult.rgb
  else Except.error "UnsupportedChannelLayout"

/-- Proof helper: the even-index elements of a list (the low bytes of a
16-bit-aligned buffer). -/
def evens : List Nat → List Nat
  | [] => []
  | [a] => [a]
  | a :: _ :: rest => a :: evens rest

/-- Proof helper: the odd-index elements of a list (the high bytes of a
16-bit-aligned buffer). -/
def odds : List Nat → List Nat
  | _ :: b :: rest => b :: odds rest
  | _ => []

end XISFViewer

namespace XISFViewer

/-- Disjoint bit-ranges make `|||` plain addition: for `l < 2 ^ n`,
`l ||| (h <<< n) = l + h * 2 ^ n`. -/
theorem lor_shiftLeft_eq_add : ∀ (n l h : Nat), l < 2 ^ n → l ||| (h <<< n) = l + h * 2 ^ n := by
  intro n
  induction n with
  | zero =>
    intro l h hl
    have : l = 0 := by omega
    subst this
    simp [Nat.shiftLeft_eq]
  | succ n ih =>
    intro l h hl
    have hpow : (2 : Nat) ^ (n + 1) = 2 * 2 ^ n := by ring
    have hsh1 : h <<< (n + 1) = 2 * (h * 2 ^ n) := by
      rw [Nat.shiftLeft_eq, hpow]
      ring
    have hshn : h <<< n = h * 2 ^ n := Nat.shiftLeft_eq h n
    have hm : (l ||| (h <<< (n + 1))) % 2 = l % 2 := by
      have hsh : (h <<< (n + 1)) % 2 = 0 := by omega
      rcases Nat.mod_two_eq_zero_or_one l with hp | hp
      · have : ¬ ((l ||| (h <<< (n + 1))) % 2 = 1) := by
          rw [Nat.or_mod_two_eq_one]
          omega
        omega
      · have : (l ||| (h <<< (n + 1))) % 2 = 1 := by
          rw [Nat.or_mod_two_eq_one]
          omega
        omega
    have hdshift : (h <<< (n + 1)) / 2 = h <<< n := by omega
    have hd : (l ||| (h <<< (n + 1))) / 2 = l / 2 + h * 2 ^ n := by
      rw [Nat.or_div_two, hdshift]
      exact ih (l / 2) h (by omega)
    have e1 := Nat.div_add_mod (l ||| (h <<< (n + 1))) 2
    have hgoal : h * 2 ^ (n + 1) = 2 * (h * 2 ^ n) := by
      rw [hpow]
      ring
    omega

/-- The low/high byte pair of a combined 16-bit sample round-trips to the
original bytes. -/
theorem serialize_pair (l hb : Nat) (hl : l < 256) (hh : hb < 256) :
    [((l + hb * 256) % 65536) % 256, ((l + hb * 256) % 65536) / 256 % 256] = [l, hb] := by
  have h1 : (l + hb * 256) % 65536 = l + hb * 256 := Nat.mod_eq_of_lt (by omega)
  rw [h1]
  have h2 : (l + hb * 256) % 256 = l := by omega
  have h3 : (l + hb * 256) / 256 % 256 = hb := by omega
  rw [h2, h3]

/-- Serializing the combined samples of byte lists interleaves the two
halves. -/
theorem zip_serialize : ∀ (lows highs : List Nat), (∀ x ∈ lows, x < 256) →
    (∀ x ∈ highs, x < 256) →
    ((List.zipWith (fun l hb => (l + hb * 256) % 65536) lows highs).map
        (fun v => [v % 256, v / 256 % 256])).flatten
      = (List.zipWith (fun l hb => [l, hb]) lows highs).flatten
  | [], _, _, _ => by simp
  | _ :: _, [], _, _ => by simp
  | l :: ls, hb :: hs, h1, h2 => by
    simp only [List.zipWith_cons_cons, List.map_cons, List.flatten_cons]
    rw [serialize_pair l hb (h1 l (List.Mem.head _)) (h2 hb (List.Mem.head _)),
      zip_serialize ls hs (fun x hx => h1 x (List.Mem.tail _ hx))
        (fun x hx => h2 x (List.Mem.tail _ hx))]

/-- On a buffer split as `lows ++ highs` of equal halves,
`unshuffle_uint16` is exactly combine-then-serialize. -/
theorem unshuffle_append (lows highs : List Nat) (h : lows.length = highs.length) :
    unshuffle_uint16 (lows ++ highs) =
      ((List.zipWith (fun l hb => (l + hb * 256) % 65536) lows highs).map
        (fun v => [v % 256, v / 256 % 256])).flatten := by
  have hn : (lows ++ highs).length / 2 = lows.length := by
    simp only [List.length_append, ← h]
    omega
  simp only [unshuffle_uint16, hn, List.take_left' rfl, List.drop_left' rfl]
  rw [show highs.take lows.length = highs by rw [h, List.take_length]]

/-- Interleaving the even- and odd-index elements back gives the list. -/
theorem interleave_evens_odds : ∀ (data : List Nat), data.length % 2 = 0 →
    (List.zipWith (fun l hb => [l, hb]) (evens data) (odds data)).flatten = data
  | [], _ => by simp [evens, odds]
  | [_], h => by simp at h
  | a :: b :: rest, h => by
    have hr : rest.length % 2 = 0 := by
      simp only [List.length_cons] at h
      omega
    simp only [evens, odds, List.zipWith_cons_cons, List.flatten_cons]
    rw [interleave_evens_odds rest hr]
    rfl

/-- The low-byte plane written by `shuffle_uint16` is the even-index
elements. -/
theorem evens_eq_range_map : ∀ (data : List Nat), data.length % 2 = 0 →
    (List.range (data.length / 2)).map (fun i => data.getD (2 * i) 0) = evens data
  | [], _ => by simp [evens]
  | [_], h => by simp at h
  | a :: b :: rest, h => by
    have hr : rest.length % 2 = 0 := by
      simp only [List.length_cons] at h
      omega
    have hn : (a :: b :: rest).length / 2 = rest.length / 2 + 1 := by
      simp only [List.length_cons]
      omega
    rw [hn, List.range_succ_eq_map, List.map_cons, List.map_map]
    have hcomp : ((fun i => (a :: b :: rest).getD (2 * i) 0) ∘ Nat.succ)
        = (fun i => rest.getD (2 * i) 0) := by
      funext i
      show (a :: b :: rest).getD (2 * (i + 1)) 0 = rest.getD (2 * i) 0
      have : 2 * (i + 1) = 2 * i + 1 + 1 := by ring
      rw [this, List.getD_cons_succ, List.getD_cons_succ]
    rw [hcomp, evens_eq_range_map rest hr]
    simp [evens]

/-- The high-byte plane written by `shuffle_uint16` is the odd-index
elements. -/
theorem odds_eq_range_map : ∀ (data : List Nat), data.length % 2 = 0 →
    (List.range (data.length / 2)).map (fun i => data.getD (2 * i + 1) 0) = odds data
  | [], _ => by simp [odds]
  | [_], h => by simp at h
  | a :: b :: rest, h => by
    have hr : rest.length % 2 = 0 := by
      simp only [List.length_cons] at h
      omega
    have hn : (a :: b :: rest).length / 2 = rest.length / 2 + 1 := by
      simp only [List.length_cons]
      omega
    rw [hn, List.range_succ_eq_map, List.map_cons, List.map_map]
    have hcomp : ((fun i => (a :: b :: rest).getD (2 * i + 1) 0) ∘ Nat.succ)
        = (fun i => rest.getD (2 * i + 1) 0) := by
      funext i
      show (a :: b :: rest).getD (2 * (i + 1) + 1) 0 = rest.getD (2 * i + 1) 0
      have : 2 * (i + 1) + 1 = 2 * i + 1 + 1 + 1 := by ring
      rw [this, List.getD_cons_succ, List.getD_cons_succ]
    rw [hcomp, odds_eq_range_map rest hr]
    simp [odds]

/-- `shuffle_uint16` on an even-length buffer writes the even-index (low)
bytes, then the odd-index (high) bytes. -/
theorem shuffle_eq_evens_append_odds (data : List Nat) (h : data.length % 2 = 0) :
    shuffle_uint16 data = evens data ++ odds data := by
  simp only [shuffle_uint16]
  rw [evens_eq_range_map data h, odds_eq_range_map data h]

/-- On even-length input the two planes have equal length. -/
theorem length_evens_eq_length_odds : ∀ (data : List Nat), data.length % 2 = 0 →
    (evens data).length = (odds data).length
  | [], _ => rfl
  | [_], h => by simp at h
  | _ :: _ :: rest, h => by
    have hr : rest.length % 2 = 0 := by
      simp only [List.length_cons] at h
      omega
    simp only [evens, odds, List.length_cons]
    rw [length_evens_eq_length_odds rest hr]

/-- Membership in the even plane comes from the original list. -/
theorem mem_evens : ∀ {data : List Nat} {x : Nat}, x ∈ evens data → x ∈ data
  | [], _, hx => by simp [evens] at hx
  | [a], _, hx => by simpa [evens] using hx
  | a :: b :: rest, x, hx => by
    simp only [evens, List.mem_cons] at hx
    rcases hx with hx | hx
    · simp [hx]
    · simp [mem_evens hx]

/-- Membership in the odd plane comes from the original list. -/
theorem mem_odds : ∀ {data : List Nat} {x : Nat}, x ∈ odds data → x ∈ data
  | [], _, hx => by simp [odds] at hx
  | [a], _, hx => by simp [odds] at hx
  | a :: b :: rest, x, hx => by
    simp only [odds, List.mem_cons] at hx
    rcases hx with hx | hx
    · simp [hx]
    · simp [mem_odds hx]

/-- Reading 16-bit samples off the interleaved serialization yields the
`low ||| (high <<< 8)` combination of the two byte planes. -/
theorem bytes_to_uint16_interleave : ∀ (lows highs : List Nat), (∀ x ∈ lows, x < 256) →
    (∀ x ∈ highs, x < 256) →
    bytes_to_uint16 ((List.zipWith (fun l hb => [l, hb]) lows highs).flatten)
      = List.zipWith (fun l hb => l ||| (hb <<< 8)) lows highs
  | [], _, _, _ => by simp [bytes_to_uint16]
  | _ :: _, [], _, _ => by simp [bytes_to_uint16]
  | l :: ls, hb :: hs, h1, h2 => by
    have hl : l < 256 := h1 l (List.Mem.head _)
    have hh : hb < 256 := h2 hb (List.Mem.head _)
    simp only [List.zipWith_cons_cons, List.flatten_cons, List.cons_append,
      List.nil_append, List.append_eq, bytes_to_uint16]
    rw [bytes_to_uint16_interleave ls hs (fun x hx => h1 x (List.Mem.tail _ hx))
      (fun x hx => h2 x (List.Mem.tail _ hx))]
    have : l % 256 + 256 * (hb % 256) = l ||| (hb <<< 8) := by
      rw [Nat.mod_eq_of_lt hl, Nat.mod_eq_of_lt hh,
        lor_shiftLeft_eq_add 8 l hb (by omega)]
      ring
    rw [this]

/-- Serializing pairs doubles the length. -/
theorem length_flatten_pairs (l : List Nat) :
    ((l.map (fun v => [v % 256, v / 256 % 256])).flatten).length = 2 * l.length := by
  induction l with
  | nil => simp
  | cons a t ih =>
    simp only [List.map_cons, List.flatten_cons, List.length_append, ih, List.length_cons]
    simp
    omega

/-- C2: `unshuffle_uint16` splits the buffer at its midpoint into a
low-byte half and a high-byte half and reconstructs the i-th 16-bit
sample as `low[i] ||| (high[i] <<< 8)`; consequently, for every
even-length byte buffer, `unshuffle_uint16` inverts the byte-plane
`shuffle` that writes all low bytes first and then all high bytes. -/
theorem claim_C2_unshuffle_midpoint_and_roundtrip :
    (∀ (lows highs : List Nat), lows.length = highs.length →
        (∀ x ∈ lows, x < 256) → (∀ x ∈ highs, x < 256) →
        bytes_to_uint16 (unshuffle_uint16 (lows ++ highs))
          = List.zipWith (fun l hb => l ||| (hb <<< 8)) lows highs) ∧
    (∀ data : List Nat, data.length % 2 = 0 → (∀ b ∈ data, b < 256) →
        unshuffle_uint16 (shuffle_uint16 data) = data) := by
  constructor
  · intro lows highs hlen hl hh
    rw [unshuffle_append lows highs hlen, zip_serialize lows highs hl hh,
      bytes_to_uint16_interleave lows highs hl hh]
  · intro data hev hb
    rw [shuffle_eq_evens_append_odds data hev,
      unshuffle_append _ _ (length_evens_eq_length_odds data hev),
      zip_serialize _ _ (fun x hx => hb x (mem_evens hx)) (fun x hx => hb x (mem_odds hx)),
      interleave_evens_odds data hev]

/-- C2 witness: concrete midpoint reconstruction and round trip. -/
theorem claim_C2_witness :
    bytes_to_uint16 (unshuffle_uint16 ([1, 2] ++ [3, 4])) = [769, 1026] ∧
    unshuffle_uint16 (shuffle_uint16 [10, 20, 30, 40]) = [10, 20, 30, 40] := by
  constructor
  · rw [claim_C2_unshuffle_midpoint_and_roundtrip.1 [1, 2] [3, 4] rfl
      (by decide) (by decide)]
    decide
  · exact claim_C2_unshuffle_midpoint_and_roundtrip.2 [10, 20, 30, 40] (by decide) (by decide)

/-- C10: `unshuffle_uint16` always returns `2 * (L / 2)` bytes without
raising, and on odd-length input the final byte has no effect — it is
silently dropped. -/
theorem claim_C10_unshuffle_odd_byte_dropped :
    (∀ data : List Nat, (unshuffle_uint16 data).length = 2 * (data.length / 2)) ∧
    (∀ data : List Nat, data.length % 2 = 1 →
        unshuffle_uint16 data = unshuffle_uint16 data.dropLast) := by
  constructor
  · intro data
    simp only [unshuffle_uint16]
    rw [length_flatten_pairs]
    simp only [List.length_zipWith, List.length_take, List.length_drop]
    omega
  · intro data hodd
    have hdl : data.dropLast.length / 2 = data.length / 2 := by
      simp only [List.length_dropLast]
      omega
    have h1 : data.dropLast.take (data.dropLast.length / 2)
        = data.take (data.length / 2) := by
      rw [hdl, List.dropLast_eq_take, List.take_take]
      congr 1
      omega
    have h2 : (data.dropLast.drop (data.dropLast.length / 2)).take (data.dropLast.length / 2)
        = (data.drop (data.length / 2)).take (data.length / 2) := by
      rw [hdl, List.dropLast_eq_take, List.drop_take, List.take_take]
      congr 1
      omega
    simp only [unshuffle_uint16]
    rw [h1, h2]

/-- C10 witness: a 3-byte buffer yields 2 output bytes, equal to the
result on the first 2 bytes. -/
theorem claim_C10_witness :
    (unshuffle_uint16 [7, 8, 9]).length = 2 * ([7, 8, 9].length / 2) ∧
    [7, 8, 9].length % 2 = 1 ∧
    unshuffle_uint16 [7, 8, 9] = unshuffle_uint16 ([7, 8, 9].dropLast) :=
  ⟨claim_C10_unshuffle_odd_byte_dropped.1 [7, 8, 9], by decide,
    claim_C10_unshuffle_odd_byte_dropped.2 [7, 8, 9] (by decide)⟩

/-- Binding a failed `Except` computation short-circuits. -/
theorem except_error_bind {ε α β : Type} (e : ε) (f : α → Except ε β) :
    (Except.error e : Except ε α) >>= f = Except.error e := rfl

/-- Binding a successful `Except` computation applies the continuation. -/
theorem except_ok_bind {ε α β : Type} (a : α) (f : α → Except ε β) :
    (Except.ok a : Except ε α) >>= f = f a := rfl

/-- The failure-prone core of the parser never consults the compression
attribute. -/
theorem parse_core_compression_irrel (attrs : ImageAttrs) (c : Option String) :
    parse_core { attrs with compression := c } = parse_core attrs := by
  cases attrs
  rfl

/-- Inversion for a successful parse: the core succeeded and the header
fields are exactly the ones built from its result. -/
theorem parse_ok_elim {attrs : ImageAttrs} {hdr : XISFHeader}
    (hp : parse_xisf_header attrs = Except.ok hdr) :
    ∃ w h c sf off sz, parse_core attrs = Except.ok ((w, h, c), sf, (off, sz)) ∧
      hdr = { width := w, height := h, channels := c, sample_format := sf,
              compression := pyLower (attrs.compression.getD "none"),
              offset := off, compressed_size := sz,
              uncompressed_size :=
                (compression_sizes (pyLower (attrs.compression.getD "none")) w h 2).1,
              item_size :=
                (compression_sizes (pyLower (attrs.compression.getD "none")) w h 2).2 } := by
  unfold parse_xisf_header at hp
  cases e : parse_core attrs with
  | error err =>
    rw [e] at hp
    exact absurd hp (by simp)
  | ok val =>
    obtain ⟨⟨w, h, c⟩, sf, off, sz⟩ := val
    rw [e] at hp
    simp only [Except.ok.injEq] at hp
    exact ⟨w, h, c, sf, off, sz, rfl, hp.symm⟩

/-- When the `+sh:` suffix is missing or malformed, the sizes fall back to
`(width*height*bytes_per_pixel, 1)`. -/
theorem compression_sizes_fallback (c : String) (w h bpp : Int) (hne : c ≠ "none")
    (hm : (pySplit c "+sh:").length ≠ 2 ∨
      parse_sh_suffix ((pySplit c "+sh:").getD 1 "") = none) :
    compression_sizes c w h bpp = (w * h * bpp, 1) := by
  simp only [compression_sizes]
  rw [if_neg hne]
  rcases hm with hm | hm
  · rw [if_neg hm]
  · by_cases h2 : (pySplit c "+sh:").length = 2
    · rw [if_pos h2, hm]
    · rw [if_neg h2]

/-- C3: a header with geometry `100:50:1`, sample format `UInt16`, no
compression, and location `attachment:128:10000` parses to
width 100, height 50, 1 channel, data offset 128, compressed size
10000. -/
theorem claim_C3_header_example :
    parse_xisf_header
        { geometry := some "100:50:1", sampleFormat := some "UInt16",
          compression := some "none", location := some "attachment:128:10000" }
      = Except.ok
        { width := 100, height := 50, channels := 1,
          sample_format := "UInt16", compression := "none",
          offset := 128, compressed_size := 10000,
          uncompressed_size := 10000, item_size := 1 } := rfl

/-- C7 counterexample: a geometry with a non-positive field is accepted —
parsing `0:50:1` succeeds and returns a header with `width = 0`, so
parsing does not reject non-positive geometry values. -/
theorem claim_C7_counterexample :
    parse_xisf_header
        { geometry := some "0:50:1", sampleFormat := some "UInt16",
          compression := some "none", location := some "attachment:128:10000" }
      = Except.ok
        { width := 0, height := 50, channels := 1,
          sample_format := "UInt16", compression := "none",
          offset := 128, compressed_size := 10000,
          uncompressed_size := 0, item_size := 1 } := rfl

/-- C7 (amended): a missing or malformed geometry attribute (not three
integer-parsable fields) makes header parsing fail with an error;
non-positive values, however, are accepted as-is. -/
theorem claim_C7_malformed_geometry_fails :
    ∀ attrs : ImageAttrs,
      (attrs.geometry = none ∨ ∃ g, attrs.geometry = some g ∧ parse_geometry g = none) →
      ∃ e, parse_xisf_header attrs = Except.error e := by
  intro attrs hmal
  have hcore : ∃ e, parse_core attrs = Except.error e := by
    rcases hmal with hg | ⟨g, hg, hpg⟩
    · refine ⟨"AttributeError: NoneType has no attribute split", ?_⟩
      simp [parse_core, hg, except_error_bind, except_ok_bind]
    · refine ⟨"ValueError: invalid geometry", ?_⟩
      simp [parse_core, hg, hpg, except_error_bind, except_ok_bind]
  obtain ⟨e, he⟩ := hcore
  refine ⟨e, ?_⟩
  unfold parse_xisf_header
  rw [he]

/-- C4: a compression value `lz4+sh:20000:2` parses to uncompressed size
20000 and shuffle item size 2; a compression other than `none` with a
missing or malformed `+sh:` suffix does not make parsing fail — the
compression attribute can never cause failure — but falls back to
uncompressed size `width*height*2` and item size 1. -/
theorem claim_C4_compression_suffix :
    (∀ (attrs : ImageAttrs) (hdr : XISFHeader),
        attrs.compression = some "lz4+sh:20000:2" →
        parse_xisf_header attrs = Except.ok hdr →
        hdr.uncompressed_size = 20000 ∧ hdr.item_size = 2) ∧
    (∀ (attrs : ImageAttrs) (c : String) (hdr : XISFHeader),
        attrs.compression = some c → pyLower c ≠ "none" →
        ((pySplit (pyLower c) "+sh:").length ≠ 2 ∨
          parse_sh_suffix ((pySplit (pyLower c) "+sh:").getD 1 "") = none) →
        parse_xisf_header attrs = Except.ok hdr →
        hdr.uncompressed_size = hdr.width * hdr.height * 2 ∧ hdr.item_size = 1) ∧
    (∀ (attrs : ImageAttrs) (c : Option String) (hdr : XISFHeader),
        parse_xisf_header attrs = Except.ok hdr →
        (parse_xisf_header { attrs with compression := c }).isOk = true) := by
  refine ⟨?_, ?_, ?_⟩
  · intro attrs hdr hc hp
    obtain ⟨w, h, c, sf, off, sz, hcore, hh⟩ := parse_ok_elim hp
    subst hh
    rw [hc]
    exact ⟨rfl, rfl⟩
  · intro attrs c hdr hc hne hm hp
    obtain ⟨w, h, cc, sf, off, sz, hcore, hh⟩ := parse_ok_elim hp
    subst hh
    rw [hc]
    simp only [Option.getD_some]
    rw [compression_sizes_fallback (pyLower c) w h 2 hne hm]
    exact ⟨rfl, rfl⟩
  · intro attrs c hdr hp
    obtain ⟨w, h, cc, sf, off, sz, hcore, -⟩ := parse_ok_elim hp
    unfold parse_xisf_header
    rw [parse_core_compression_irrel attrs c, hcore]
    rfl

/-- C4 witness: concrete parses with a well-formed suffix, a suffix-free
compression, and a compression swap that preserves success. -/
theorem claim_C4_witness :
    ((parse_xisf_header
        { geometry := some "100:50:1", sampleFormat := some "UInt16",
          compression := some "lz4+sh:20000:2",
          location := some "attachment:128:10000" }).isOk = true) ∧
    ({ width := 100, height := 50, channels := 1, sample_format := "UInt16",
       compression := "lz4+sh:20000:2", offset := 128, compressed_size := 10000,
       uncompressed_size := 20000, item_size := 2 : XISFHeader }.uncompressed_size = 20000) ∧
    ({ width := 100, height := 50, channels := 1, sample_format := "UInt16",
       compression := "lz4", offset := 128, compressed_size := 10000,
       uncompressed_size := 10000, item_size := 1 : XISFHeader }.uncompressed_size
      = 100 * 50 * 2) ∧
    ((parse_xisf_header
        { geometry := some "100:50:1", sampleFormat := some "UInt16",
          compression := some "zlib+sh:zz",
          location := some "attachment:128:10000" }).isOk = true) := by
  refine ⟨rfl, ?_, ?_, ?_⟩
  · exact (claim_C4_compression_suffix.1
      { geometry := some "100:50:1", sampleFormat := some "UInt16",
        compression := some "lz4+sh:20000:2", location := some "attachment:128:10000" }
      _ rfl rfl).1
  · have := (claim_C4_compression_suffix.2.1
      { geometry := some "100:50:1", sampleFormat := some "UInt16",
        compression := some "lz4", location := some "attachment:128:10000" }
      "lz4" _ rfl (by decide) (Or.inl (by decide)) rfl).1
    exact this
  · exact claim_C4_compression_suffix.2.2
      { geometry := some "100:50:1", sampleFormat := some "UInt16",
        compression := some "lz4+sh:20000:2", location := some "attachment:128:10000" }
      (some "zlib+sh:zz") _ rfl

/-- C7 witness: geometry `a:b:c` is malformed and parsing fails. -/
theorem claim_C7_witness :
    (parse_xisf_header
        { geometry := some "a:b:c", sampleFormat := some "UInt16",
          compression := some "none", location := some "attachment:128:10000" }).isOk
      = false := by
  obtain ⟨e, he⟩ := claim_C7_malformed_geometry_fails
    { geometry := some "a:b:c", sampleFormat := some "UInt16",
      compression := some "none", location := some "attachment:128:10000" }
    (Or.inr ⟨"a:b:c", rfl, rfl⟩)
  rw [he]
  rfl

/-- C8 counterexample: a 3-D array with 4 channels does not raise an
`UnsupportedChannelLayout` error at rasterization — the code's else
branch clears the image label and returns normally (a silent no-op),
diverging from the spec model that demands a hard failure. -/
theorem claim_C8_counterexample :
    display_shape_dispatch [10, 20, 4] = DisplayResult.cleared ∧
      spec_rasterize [10, 20, 4] = Except.error "UnsupportedChannelLayout" :=
  ⟨rfl, rfl⟩

/-- C8 (amended): 2-D arrays rasterize as grayscale and 3-D arrays with
exactly 3 channels as RGB; every other shape makes `update_display_image`
clear the displayed image and return silently — no error is raised or
surfaced. -/
theorem claim_C8_shape_dispatch :
    (∀ shape : List Nat, shape.length = 2 →
        display_shape_dispatch shape = DisplayResult.gray) ∧
    (∀ shape : List Nat, shape.length = 3 → shape.getD 2 0 = 3 →
        display_shape_dispatch shape = DisplayResult.rgb) ∧
    (∀ shape : List Nat, shape.length ≠ 2 →
        ¬(shape.length = 3 ∧ shape.getD 2 0 = 3) →
        display_shape_dispatch shape = DisplayResult.cleared) := by
  refine ⟨?_, ?_, ?_⟩
  · intro shape h2
    unfold display_shape_dispatch
    rw [if_pos h2]
  · intro shape h3 hc
    unfold display_shape_dispatch
    rw [if_neg (by omega), if_pos ⟨h3, hc⟩]
  · intro shape h2 h3
    unfold display_shape_dispatch
    rw [if_neg h2, if_neg h3]

/-- C8 witness: concrete shapes for each branch. -/
theorem claim_C8_witness :
    display_shape_dispatch [5, 6] = DisplayResult.gray ∧
    display_shape_dispatch [5, 6, 3] = DisplayResult.rgb ∧
    display_shape_dispatch [5, 6, 4] = DisplayResult.cleared :=
  ⟨claim_C8_shape_dispatch.1 [5, 6] (by decide),
    claim_C8_shape_dispatch.2.1 [5, 6, 3] (by decide) (by decide),
    claim_C8_shape_dispatch.2.2 [5, 6, 4] (by decide) (by decide)⟩

/-- C9: the asinh stretch is the identity at factor 0 and, for every fixed
factor `k >= 0`, monotonically non-decreasing in the sample value. -/
theorem claim_C9_asinh_stretch_identity_and_monotone :
    (∀ v : ℝ, asinh_stretch v 0 = v) ∧
    (∀ k : ℝ, 0 ≤ k → ∀ u v : ℝ, u ≤ v → asinh_stretch u k ≤ asinh_stretch v k) := by
  constructor
  · intro v
    simp [asinh_stretch]
  · intro k hk u v huv
    rcases lt_or_eq_of_le hk with hkpos | hk0
    · have hnle : ¬ k ≤ 0 := not_le.mpr hkpos
      simp only [asinh_stretch, if_neg hnle]
      have hden : 0 < Real.arsinh k := Real.arsinh_pos_iff.mpr hkpos
      rw [div_le_div_iff_of_pos_right hden]
      exact Real.arsinh_le_arsinh.mpr (mul_le_mul_of_nonneg_right huv hk)
    · rw [← hk0]
      simpa [asinh_stretch] using huv

/-- C9 witness: identity at factor 0 on 0.5, monotone step at factor 1. -/
theorem claim_C9_witness :
    asinh_stretch 0.5 0 = 0.5 ∧ asinh_stretch 0 1 ≤ asinh_stretch 1 1 :=
  ⟨claim_C9_asinh_stretch_identity_and_monotone.1 0.5,
    claim_C9_asinh_stretch_identity_and_monotone.2 1 (by norm_num) 0 1 (by norm_num)⟩

/-- At the identity parameters the whole tone-map chain fixes every value
already in `[0,1]`. -/
theorem toneMapPoint_id (v : ℝ) (h0 : 0 ≤ v) (h1 : v ≤ 1) :
    toneMapPoint 0 1 1 1 v = v := by
  have hclip : clip01 v = v := by
    rw [clip01, max_eq_left h0, min_eq_left h1]
  show clip01 ((clip01 ((asinh_stretch v 0)
      ^ (if (1 : ℝ) ≠ 0 then 1 / (1 : ℝ) else 1) * 1) - 0.5) * 1 + 0.5) = v
  have hs : asinh_stretch v 0 = v := by simp [asinh_stretch]
  have he : (if (1 : ℝ) ≠ 0 then 1 / (1 : ℝ) else 1) = 1 := by norm_num
  rw [hs, he, Real.rpow_one, mul_one, mul_one, hclip]
  have harith : v - 0.5 + 0.5 = v := by ring
  rw [harith, hclip]

/-- The minimum used by `normalize` bounds every sample from below. -/
theorem min_getD_le_of_mem {l : List Nat} {x : Nat} (hx : x ∈ l) :
    l.min?.getD 0 ≤ x := by
  cases hm : l.min? with
  | none =>
    rw [List.min?_eq_none_iff] at hm
    subst hm
    simp at hx
  | some m =>
    simpa using (List.min?_eq_some_iff'.mp hm).2 x hx

/-- The maximum used by `normalize` bounds every sample from above. -/
theorem le_max_getD_of_mem {l : List Nat} {x : Nat} (hx : x ∈ l) :
    x ≤ l.max?.getD 0 := by
  cases hm : l.max? with
  | none =>
    rw [List.max?_eq_none_iff] at hm
    subst hm
    simp at hx
  | some m =>
    simpa using (List.max?_eq_some_iff'.mp hm).2 x hx

/-- C1: decoding and tone-mapping at effectiveStretch 0, gamma 1,
brightness 1, contrast 1 reproduces the min-max-normalized samples
exactly: the stretch at factor 0 is the identity, the power with exponent
1/1 is the identity, and both clips fix values already in `[0,1]`. -/
theorem claim_C1_identity_tone_map (samples : List Nat) :
    (normalize samples).map (toneMapPoint 0 1 1 1) = normalize samples := by
  unfold normalize
  by_cases h : samples.max?.getD 0 > samples.min?.getD 0
  · rw [if_pos h, List.map_map]
    refine List.map_congr_left fun x hx => ?_
    have hmn : samples.min?.getD 0 ≤ x := min_getD_le_of_mem hx
    have hmx : x ≤ samples.max?.getD 0 := le_max_getD_of_mem hx
    have hlt : ((samples.min?.getD 0 : ℝ)) < ((samples.max?.getD 0 : ℝ)) := by
      exact_mod_cast h
    have hpos : (0 : ℝ) < (samples.max?.getD 0 : ℝ) - (samples.min?.getD 0 : ℝ) := by
      linarith
    have hxl : ((samples.min?.getD 0 : ℝ)) ≤ (x : ℝ) := by exact_mod_cast hmn
    have hxu : (x : ℝ) ≤ ((samples.max?.getD 0 : ℝ)) := by exact_mod_cast hmx
    have h0 : 0 ≤ ((x : ℝ) - (samples.min?.getD 0 : ℝ))
        / ((samples.max?.getD 0 : ℝ) - (samples.min?.getD 0 : ℝ)) :=
      div_nonneg (by linarith) hpos.le
    have h1 : ((x : ℝ) - (samples.min?.getD 0 : ℝ))
        / ((samples.max?.getD 0 : ℝ) - (samples.min?.getD 0 : ℝ)) ≤ 1 := by
      rw [div_le_one hpos]
      linarith
    exact toneMapPoint_id _ h0 h1
  · rw [if_neg h, List.map_map]
    refine List.map_congr_left fun x hx => ?_
    exact toneMapPoint_id 0 le_rfl zero_le_one

/-- The maximum of a nonempty list is one of its elements. -/
theorem max_getD_mem {l : List Nat} (hne : l ≠ []) : l.max?.getD 0 ∈ l := by
  cases hm : l.max? with
  | none =>
    rw [List.max?_eq_none_iff] at hm
    exact absurd hm hne
  | some m =>
    simpa using (List.max?_eq_some_iff'.mp hm).1

/-- C6: min and max are taken ignoring NaN samples; with `max > min`
every sample is normalized as `(x-min)/(max-min)` (NaN in, NaN out on
the FITS path), with `max == min` (or all-NaN) the result is an all-zero
array of the same shape — a defined outcome, not an error — and when
`max > min` the output contains the value 1, so it is never blank. -/
theorem claim_C6_minmax_normalization :
    (∀ (samples : List Nat) (mn mx : Nat), samples.min? = some mn →
        samples.max? = some mx → mx > mn →
        normalize samples
          = samples.map (fun (x : Nat) => ((x : ℝ) - (mn : ℝ)) / ((mx : ℝ) - (mn : ℝ)))) ∧
    (∀ (samples : List Nat) (m : Nat), samples.min? = some m → samples.max? = some m →
        normalize samples = samples.map (fun (_ : Nat) => (0 : ℝ))) ∧
    (∀ (samples : List Nat) (mn mx : Nat), samples.min? = some mn →
        samples.max? = some mx → mx > mn → (1 : ℝ) ∈ normalize samples) ∧
    (∀ l : List (Option ℝ),
        ((none :: l).filterMap id).min? = (l.filterMap id).min? ∧
        ((none :: l).filterMap id).max? = (l.filterMap id).max?) ∧
    (∀ (l : List (Option ℝ)) (mn mx : ℝ), (l.filterMap id).min? = some mn →
        (l.filterMap id).max? = some mx → mx > mn →
        fits_normalize l = l.map (Option.map (fun x => (x - mn) / (mx - mn)))) ∧
    (∀ (l : List (Option ℝ)) (m : ℝ), (l.filterMap id).min? = some m →
        (l.filterMap id).max? = some m →
        fits_normalize l = l.map (fun _ => some 0)) ∧
    (∀ l : List (Option ℝ), l.filterMap id = [] →
        fits_normalize l = l.map (fun _ => some 0)) := by
  refine ⟨?_, ?_, ?_, ?_, ?_, ?_, ?_⟩
  · intro samples mn mx hmn hmx hlt
    unfold normalize
    rw [hmn, hmx, Option.getD_some, Option.getD_some, if_pos hlt]
  · intro samples m hmn hmx
    unfold normalize
    rw [hmn, hmx]
    simp only [Option.getD_some, gt_iff_lt, lt_self_iff_false, if_false]
  · intro samples mn mx hmn hmx hlt
    have hne : samples ≠ [] := by
      intro hnil
      rw [hnil] at hmx
      simp at hmx
    have hmem : samples.max?.getD 0 ∈ samples := max_getD_mem hne
    rw [hmx, Option.getD_some] at hmem
    unfold normalize
    rw [hmn, hmx, Option.getD_some, Option.getD_some, if_pos hlt]
    refine List.mem_map.mpr ⟨mx, hmem, ?_⟩
    have hcast : ((mn : ℝ)) < ((mx : ℝ)) := by exact_mod_cast hlt
    exact div_self (by linarith)
  · intro l
    constructor <;> rfl
  · intro l mn mx hmn hmx hlt
    simp only [fits_normalize]
    rw [hmn, hmx]
    simp only [if_pos hlt]
  · intro l m hmn hmx
    simp only [fits_normalize]
    rw [hmn, hmx]
    simp only [gt_iff_lt, lt_self_iff_false, if_false]
  · intro l hempty
    simp only [fits_normalize]
    rw [hempty]
    rfl

/-- C6 witness: a sloped uint16 image normalizes by the formula and
contains 1; a flat image and an all-NaN FITS image normalize to all
zeros; a NaN sample does not change the min/max; a sloped FITS image with
one NaN normalizes pointwise. -/
theorem claim_C6_witness :
    normalize [2, 4]
      = [2, 4].map (fun (x : Nat) => ((x : ℝ) - ((2 : Nat) : ℝ)) / (((4 : Nat) : ℝ) - ((2 : Nat) : ℝ))) ∧
    normalize [3, 3] = [3, 3].map (fun (_ : Nat) => (0 : ℝ)) ∧
    (1 : ℝ) ∈ normalize [2, 4] ∧
    fits_normalize [some 1, none, some 3]
      = [some 1, none, some 3].map (Option.map (fun x => (x - 1) / (3 - 1))) ∧
    fits_normalize [none, none] = [some 0, some 0] := by
  have hmin : ([2, 4] : List Nat).min? = some 2 := by decide
  have hmax : ([2, 4] : List Nat).max? = some 4 := by decide
  have hminr : (([some 1, none, some 3] : List (Option ℝ)).filterMap id).min? = some 1 := by
    show ([1, 3] : List ℝ).min? = some 1
    show some (min 1 3) = some 1
    norm_num
  have hmaxr : (([some 1, none, some 3] : List (Option ℝ)).filterMap id).max? = some 3 := by
    show ([1, 3] : List ℝ).max? = some 3
    show some (max 1 3) = some 3
    norm_num
  refine ⟨?_, ?_, ?_, ?_, ?_⟩
  · exact claim_C6_minmax_normalization.1 [2, 4] 2 4 hmin hmax (by norm_num)
  · exact claim_C6_minmax_normalization.2.1 [3, 3] 3 (by decide) (by decide)
  · exact claim_C6_minmax_normalization.2.2.1 [2, 4] 2 4 hmin hmax (by norm_num)
  · exact claim_C6_minmax_normalization.2.2.2.2.1 [some 1, none, some 3] 1 3 hminr hmaxr
      (by norm_num)
  · have := claim_C6_minmax_normalization.2.2.2.2.2.2 [none, none] rfl
    simpa using this

/-- A put of a new key into a cache with room appends it. -/
theorem cache_put_small (c : Cache Nat) (k : String) (v : Nat)
    (hget : cache_get c k = none) (hlen : c.length ≤ 4) :
    cache_put c k v = c ++ [(k, v)] := by
  have hp : ¬ ((cache_get c k).isSome = true) := by
    rw [hget]
    simp
  have hng : ¬ ((c ++ [(k, v)]).length > 5) := by
    rw [List.length_append]
    simp
    omega
  simp only [cache_put]
  rw [if_neg hp, if_neg hng]

/-- A put of a new key into a full cache appends it and evicts the oldest
(first) entry. -/
theorem cache_put_full (c : Cache Nat) (k : String) (v : Nat)
    (hlen : c.length = 5) (hget : cache_get c k = none) :
    cache_put c k v = c.tail ++ [(k, v)] := by
  have hp : ¬ ((cache_get c k).isSome = true) := by
    rw [hget]
    simp
  have hgt : (c ++ [(k, v)]).length > 5 := by
    rw [List.length_append, hlen]
    simp
  simp only [cache_put]
  rw [if_neg hp, if_pos hgt]
  cases c with
  | nil => simp at hlen
  | cons a t => rfl

/-- C5: a put never grows the cache beyond its fixed capacity of 5; a put
of a new key into a full cache evicts exactly the oldest (first) entry;
and after 6 puts of pairwise distinct paths into an empty cache the
first-inserted key is absent while the five later keys remain
retrievable with their values. -/
theorem claim_C5_cache_capacity_and_eviction :
    (∀ (c : Cache Nat) (k : String) (v : Nat), c.length ≤ 5 →
        (cache_put c k v).length ≤ 5) ∧
    (∀ (c : Cache Nat) (k : String) (v : Nat), c.length = 5 → cache_get c k = none →
        cache_put c k v = c.tail ++ [(k, v)]) ∧
    (∀ k0 k1 k2 k3 k4 k5 : String,
        k0 ≠ k1 → k0 ≠ k2 → k0 ≠ k3 → k0 ≠ k4 → k0 ≠ k5 →
        k1 ≠ k2 → k1 ≠ k3 → k1 ≠ k4 → k1 ≠ k5 →
        k2 ≠ k3 → k2 ≠ k4 → k2 ≠ k5 →
        k3 ≠ k4 → k3 ≠ k5 → k4 ≠ k5 →
        (cache_get (cache_put (cache_put (cache_put (cache_put (cache_put
            (cache_put ([] : Cache Nat) k0 0) k1 1) k2 2) k3 3) k4 4) k5 5) k0 = none) ∧
        (cache_get (cache_put (cache_put (cache_put (cache_put (cache_put
            (cache_put ([] : Cache Nat) k0 0) k1 1) k2 2) k3 3) k4 4) k5 5) k1 = some 1) ∧
        (cache_get (cache_put (cache_put (cache_put (cache_put (cache_put
            (cache_put ([] : Cache Nat) k0 0) k1 1) k2 2) k3 3) k4 4) k5 5) k2 = some 2) ∧
        (cache_get (cache_put (cache_put (cache_put (cache_put (cache_put
            (cache_put ([] : Cache Nat) k0 0) k1 1) k2 2) k3 3) k4 4) k5 5) k3 = some 3) ∧
        (cache_get (cache_put (cache_put (cache_put (cache_put (cache_put
            (cache_put ([] : Cache Nat) k0 0) k1 1) k2 2) k3 3) k4 4) k5 5) k4 = some 4) ∧
        (cache_get (cache_put (cache_put (cache_put (cache_put (cache_put
            (cache_put ([] : Cache Nat) k0 0) k1 1) k2 2) k3 3) k4 4) k5 5) k5 = some 5)) := by
  refine ⟨?_, ?_, ?_⟩
  · intro c k v hle
    simp only [cache_put]
    by_cases hp : (cache_get c k).isSome
    · rw [if_pos hp]
      have hm : (c.map (fun p => if p.1 = k then (k, v) else p)).length = c.length :=
        List.length_map _ _
      by_cases hl : (c.map (fun p => if p.1 = k then (k, v) else p)).length > 5
      · rw [if_pos hl]
        rw [List.length_tail]
        omega
      · rw [if_neg hl]
        omega
    · rw [if_neg hp]
      have ha : (c ++ [(k, v)]).length = c.length + 1 := by simp
      by_cases hl : (c ++ [(k, v)]).length > 5
      · rw [if_pos hl]
        rw [List.length_tail]
        omega
      · rw [if_neg hl]
        omega
  · exact cache_put_full
  · intro k0 k1 k2 k3 k4 k5 h01 h02 h03 h04 h05 h12 h13 h14 h15 h23 h24 h25 h34 h35 h45
    have e1 : cache_put ([] : Cache Nat) k0 0 = [(k0, 0)] := rfl
    have g1 : cache_get [(k0, 0)] k1 = none := by
      simp [cache_get, List.find?, h01]
    have e2 : cache_put [(k0, 0)] k1 1 = [(k0, 0), (k1, 1)] := by
      rw [cache_put_small _ _ _ g1 (by simp)]
      rfl
    have g2 : cache_get [(k0, 0), (k1, 1)] k2 = none := by
      simp [cache_get, List.find?, h02, h12]
    have e3 : cache_put [(k0, 0), (k1, 1)] k2 2 = [(k0, 0), (k1, 1), (k2, 2)] := by
      rw [cache_put_small _ _ _ g2 (by simp)]
      rfl
    have g3 : cache_get [(k0, 0), (k1, 1), (k2, 2)] k3 = none := by
      simp [cache_get, List.find?, h03, h13, h23]
    have e4 : cache_put [(k0, 0), (k1, 1), (k2, 2)] k3 3
        = [(k0, 0), (k1, 1), (k2, 2), (k3, 3)] := by
      rw [cache_put_small _ _ _ g3 (by simp)]
      rfl
    have g4 : cache_get [(k0, 0), (k1, 1), (k2, 2), (k3, 3)] k4 = none := by
      simp [cache_get, List.find?, h04, h14, h24, h34]
    have e5 : cache_put [(k0, 0), (k1, 1), (k2, 2), (k3, 3)] k4 4
        = [(k0, 0), (k1, 1), (k2, 2), (k3, 3), (k4, 4)] := by
      rw [cache_put_small _ _ _ g4 (by simp)]
      rfl
    have g5 : cache_get [(k0, 0), (k1, 1), (k2, 2), (k3, 3), (k4, 4)] k5 = none := by
      simp [cache_get, List.find?, h05, h15, h25, h35, h45]
    have e6 : cache_put [(k0, 0), (k1, 1), (k2, 2), (k3, 3), (k4, 4)] k5 5
        = [(k1, 1), (k2, 2), (k3, 3), (k4, 4), (k5, 5)] := by
      rw [cache_put_full _ _ _ (by simp) g5]
      rfl
    rw [e1, e2, e3, e4, e5, e6]
    refine ⟨?_, ?_, ?_, ?_, ?_, ?_⟩
    · simp [cache_get, List.find?, Ne.symm h01, Ne.symm h02, Ne.symm h03,
        Ne.symm h04, Ne.symm h05]
    · simp [cache_get, List.find?]
    · simp [cache_get, List.find?, h12]
    · simp [cache_get, List.find?, h13, h23]
    · simp [cache_get, List.find?, h14, h24, h34]
    · simp [cache_get, List.find?, h15, h25, h35, h45]

/-- C5 witness: six distinct concrete paths; the first is evicted, the
rest retrievable; a put on a full cache keeps length 5 and drops the
head. -/
theorem claim_C5_witness :
    (cache_put [("a", 0), ("b", 1), ("c", 2), ("d", 3), ("e", 4)] "f" 5).length ≤ 5 ∧
    cache_put [("a", 0), ("b", 1), ("c", 2), ("d", 3), ("e", 4)] "f" 5
      = [("b", 1), ("c", 2), ("d", 3), ("e", 4), ("f", 5)] ∧
    (cache_get (cache_put (cache_put (cache_put (cache_put (cache_put
        (cache_put ([] : Cache Nat) "a" 0) "b" 1) "c" 2) "d" 3) "e" 4) "f" 5) "a" = none) ∧
    (cache_get (cache_put (cache_put (cache_put (cache_put (cache_put
        (cache_put ([] : Cache Nat) "a" 0) "b" 1) "c" 2) "d" 3) "e" 4) "f" 5) "f" = some 5) := by
  have h3 := claim_C5_cache_capacity_and_eviction.2.2 "a" "b" "c" "d" "e" "f"
    (by decide) (by decide) (by decide) (by decide) (by decide)
    (by decide) (by decide) (by decide) (by decide)
    (by decide) (by decide) (by decide)
    (by decide) (by decide) (by decide)
  refine ⟨?_, ?_, h3.1, h3.2.2.2.2.2⟩
  · exact claim_C5_cache_capacity_and_eviction.1
      [("a", 0), ("b", 1), ("c", 2), ("d", 3), ("e", 4)] "f" 5 (by decide)
  · have h2 := claim_C5_cache_capacity_and_eviction.2.1
      [("a", 0), ("b", 1), ("c", 2), ("d", 3), ("e", 4)] "f" 5 rfl (by decide)
    simpa using h2

end XISFViewer
